import Mathlib

/-!
Verification development for the habit-tracker application (`app.py`).

Conventions of the embedding:
- ISO-8601 date strings are represented by their proleptic-Gregorian ordinal
  (an `Int`), as computed by `toOrdinal` below.  Equality and lexicographic
  order of well-formed ISO date strings coincide with equality and order of
  their ordinals, so comparisons and sorting are preserved.
- Python floats are idealised as exact rationals (`ℚ`); `round(_, 0)` is
  Python's round-half-to-even, embedded as `round_half_even`.
- `st.session_state.history` rows (dicts with keys date/pct/mood/checked_count)
  are the structure `Row`.
- External effects (the OpenAI chat call, `random.randint`, wall-clock today)
  are passed in as explicit parameters, since the embedded code only consumes
  their results.
-/

namespace HabitTracker

/-- History row, as stored in `st.session_state.history` by `save_day` and
`init_demo_history_if_empty` (keys: date, pct, mood, checked_count). -/
structure Row where
  date : Int
  pct : Int
  mood : Int
  checked_count : Int
deriving DecidableEq, Repr

/-- Log entry of the spec's data model (§3): (date, habit_id, checked). -/
structure LogEntry where
  date : Int
  habit_id : String
  checked : Bool
deriving DecidableEq, Repr

/-- Habit definition of the spec's data model (§3/§6):
id, name, category, target_per_week, start_date. -/
structure Habit where
  id : String
  name : String
  category : String
  target_per_week : Int
  start_date : Int
deriving DecidableEq, Repr

/-- Round half to even, the behaviour of Python's builtin `round(_, 0)`
(idealised over exact rationals instead of binary floats). -/
def round_half_even (q : ℚ) : Int :=
  if q - (⌊q⌋ : ℚ) < 1 / 2 then ⌊q⌋
  else if 1 / 2 < q - (⌊q⌋ : ℚ) then ⌊q⌋ + 1
  else if ⌊q⌋ % 2 = 0 then ⌊q⌋ else ⌊q⌋ + 1

/-- Embedding of `safe_pct` (app.py lines 30-33):
`if total <= 0: return 0` then `int(round((x / total) * 100, 0))`. -/
def safe_pct (x total : Int) : Int :=
  if total ≤ 0 then 0
  else round_half_even ((x : ℚ) / (total : ℚ) * 100)

/-- Python's `pat in s` substring test: `s.splitOn pat` has at least two
pieces exactly when `pat` occurs in `s`. -/
def containsSub (s pat : String) : Bool :=
  decide (2 ≤ (s.splitOn pat).length)

/-- Python's `sorted(set(v))` for a list of strings: drop duplicates, then
sort ascending by code-point order. -/
def sortedDedup (l : List String) : List String :=
  List.insertionSort (fun a b : String => a ≤ b) l.dedup

/-- Embedding of `heuristic_recommendation` (app.py lines 169-185).
Python dicts keep insertion order, so the result is an association list in
the order the keys were inserted. -/
def heuristic_recommendation (goal health_traits : String) : List (String × List String) :=
  let trait_text := (goal ++ " " ++ health_traits).toLower
  let ex0 := ["30분 걷기", "스트레칭 10분"]
  let mind0 := ["감정 기록 3줄"]
  let nut0 := ["단백질 포함 식사"]
  let c1 := containsSub trait_text "체중" || containsSub trait_text "다이어트"
  let c2 := containsSub trait_text "혈압" || containsSub trait_text "당"
  let c3 := containsSub trait_text "불면" || containsSub trait_text "스트레스"
  let ex1 := if c1 then ex0 ++ ["가벼운 근력운동"] else ex0
  let nut1 := if c1 then nut0 ++ ["야식 줄이기"] else nut0
  let nut2 := if c2 then nut1 ++ ["채소 한 접시"] else nut1
  let mind1 := if c3 then mind0 ++ ["심호흡 5분", "디지털 디톡스 30분"] else mind0
  [("운동", sortedDedup ex1), ("마음건강", sortedDedup mind1), ("영양", sortedDedup nut2)]

/-- Python's `str.strip()`: drop whitespace from both ends of the character
list (embedded structurally so it evaluates in the kernel). -/
def stripChars (l : List Char) : List Char :=
  ((l.dropWhile Char.isWhitespace).reverse.dropWhile Char.isWhitespace).reverse

/-- String wrapper for `stripChars`. -/
def strip (s : String) : String := String.mk (stripChars s.data)

/-- Embedding of the `cleaned` loop of `generate_habit_recommendations`
(app.py lines 222-229).  The parsed JSON dict is an association list whose
values are `some vs` for a JSON list (already stringified elements) and
`none` for a non-list value.  `data.get(k, [])` defaults a missing key to the
empty list, which is a list, so a missing key contributes `(k, [])`;
`str(x)[:20]` truncates to 20 characters and `[:3]` keeps at most 3 items. -/
def cleanedOf (data : List (String × Option (List String))) : List (String × List String) :=
  ["운동", "영양", "마음건강"].filterMap (fun k =>
    match data.lookup k with
    | none => some (k, ([] : List String))
    | some none => none
    | some (some vs) => some (k, (vs.map (fun s => String.mk (s.data.take 20))).take 3))

/-- Embedding of `generate_habit_recommendations` (app.py lines 188-233).
`openai_api_key` is `none` when the caller passes Python `None`
(`openai_api_key or ""`).  `api_result` is the outcome of the external OpenAI
call followed by `json.loads`: `none` when the call raises, the response is
not valid JSON, or the parsed value is not a dict (all of which fall through
to the heuristic); `some data` when a JSON dict was obtained. -/
def generate_habit_recommendations (openai_api_key : Option String) (goal health_traits : String)
    (api_result : Option (List (String × Option (List String)))) : List (String × List String) :=
  if strip (openai_api_key.getD "") = "" then heuristic_recommendation goal health_traits
  else
    match api_result with
    | none => heuristic_recommendation goal health_traits
    | some data =>
      if cleanedOf data = [] then heuristic_recommendation goal health_traits
      else cleanedOf data

/-- Gregorian leap-year test (as in Python's `calendar.isleap`). -/
def isLeap (y : Int) : Bool :=
  (y % 4 == 0 && y % 100 != 0) || (y % 400 == 0)

/-- Number of days in month `m` (1-12) of year `y`. -/
def daysInMonth (y : Int) (m : Nat) : Nat :=
  if m = 2 then (if isLeap y then 29 else 28)
  else if m = 4 ∨ m = 6 ∨ m = 9 ∨ m = 11 then 30 else 31

/-- Days in all years before year `y` (proleptic Gregorian, year ≥ 1). -/
def daysBeforeYear (y : Int) : Int :=
  365 * (y - 1) + (y - 1) / 4 - (y - 1) / 100 + (y - 1) / 400

/-- Days in the months of year `y` before month `m`. -/
def daysBeforeMonth (y : Int) (m : Nat) : Nat :=
  ((List.range (m - 1)).map (fun i => daysInMonth y (i + 1))).sum

/-- Ordinal of the date `y-m-d`, matching Python's `date.toordinal()`
(ordinal 1 is 0001-01-01). -/
def toOrdinal (y : Int) (m d : Nat) : Int :=
  daysBeforeYear y + (daysBeforeMonth y m : Int) + (d : Int)

/-- Weekday of `y-m-d` with Monday = 0, matching Python's `date.weekday()`. -/
def weekday (y : Int) (m d : Nat) : Nat :=
  ((toOrdinal y m d + 6) % 7).toNat

/-- Embedding of Python's `calendar.monthcalendar(y, m)`: the month's day
numbers arranged in Monday-first weeks, padded with 0 outside the month. -/
def monthcalendar (y : Int) (m : Nat) : List (List Nat) :=
  let first := weekday y m 1
  let n := daysInMonth y m
  let pad := (7 - (first + n) % 7) % 7
  let cells := List.replicate first 0 ++ (List.range n).map (fun i => i + 1) ++ List.replicate pad 0
  (List.range ((first + n + pad) / 7)).map (fun w => (cells.drop (7 * w)).take 7)

/-- Weekday column keys used by `build_month_calendar` (app.py line 244). -/
def WEEKDAY_KEYS : List String := ["월", "화", "수", "목", "금", "토", "일"]

/-- Lookup in the dict `{row["date"]: row.get("pct", 0) for row in rows}`
(app.py line 237); on duplicate dates the comprehension keeps the last row,
hence the search over the reversed list. -/
def lookup_pct (rows : List Row) (key : Int) : Option Int :=
  (rows.reverse.find? (fun r => r.date == key)).map (fun r => r.pct)

/-- Cell text of the month table (app.py lines 246-250): empty for padding,
otherwise the day number, annotated with the percentage when the date has a
history row. -/
def month_cell (y : Int) (m : Nat) (rows : List Row) (d : Nat) : String :=
  if d = 0 then ""
  else
    match lookup_pct rows (toOrdinal y m d) with
    | some pct => toString d ++ "\n(" ++ toString pct ++ "%)"
    | none => toString d

/-- Embedding of `build_month_calendar(selected_date, history_rows)`
(app.py lines 236-252); `y`/`m` are `selected_date.year`/`selected_date.month`. -/
def build_month_calendar (y : Int) (m : Nat) (history_rows : List Row) :
    List (List (String × String)) :=
  (monthcalendar y m).map (fun week =>
    (WEEKDAY_KEYS.zip week).map (fun p => (p.1, month_cell y m history_rows p.2)))

/-- Embedding of `checked_habits` (app.py line 518): the keys of the
`checked_map` dict whose value is `True`, in insertion order. -/
def checked_habits (checked_map : List (String × Bool)) : List String :=
  (checked_map.filter (fun p => p.2)).map (fun p => p.1)

/-- Embedding of `checked_count` (app.py line 520). -/
def checked_count (checked_map : List (String × Bool)) : Nat :=
  (checked_habits checked_map).length

/-- Date order on history rows, used by `sorted(..., key=lambda x: x["date"])`
(app.py line 559). -/
def rowLe (a b : Row) : Prop := a.date ≤ b.date

instance : DecidableRel rowLe := fun a b => Int.decLe a.date b.date

instance : IsTotal Row rowLe := ⟨fun a b => Int.le_total a.date b.date⟩

instance : IsTrans Row rowLe := ⟨fun _ _ _ h1 h2 => le_trans h1 h2⟩

/-- Python's `l[-7:]` on a list. -/
def takeLast {α : Type} (n : Nat) (l : List α) : List α :=
  l.drop (l.length - n)

/-- The update loop of `save_day` (app.py lines 540-547): overwrite the
pct/mood/checked_count fields of the first row whose date matches (the loop
breaks at the first hit). -/
def update_first (history : List Row) (day pct mood cc : Int) : List Row :=
  match history with
  | [] => []
  | r :: rest =>
    if r.date = day then { date := day, pct := pct, mood := mood, checked_count := cc } :: rest
    else r :: update_first rest day pct mood cc

/-- Embedding of `save_day(day_str)` (app.py lines 538-560): update the row
for `day` in place if present, otherwise append a new row; then keep only the
last 7 rows of the history sorted by date.  The ambient values
`achievement_pct`, `mood`, `checked_count` are the parameters `pct`, `mood`,
`cc`. -/
def save_day (history : List Row) (day pct mood cc : Int) : List Row :=
  let h1 :=
    if history.any (fun r => r.date == day) then update_first history day pct mood cc
    else history ++ [{ date := day, pct := pct, mood := mood, checked_count := cc }]
  takeLast 7 (List.insertionSort rowLe h1)

/-- Embedding of `init_demo_history_if_empty` (app.py lines 410-434): when
the history is empty, install six demo rows for the six days before `today`;
`rand_checked i` and `rand_mood i` stand for the two `random.randint` draws
of iteration `i`. -/
def init_demo_history_if_empty (history : List Row) (today : Int)
    (rand_checked rand_mood : Nat → Int) : List Row :=
  if history.isEmpty then
    (List.range 6).map (fun (i : Nat) =>
      { date := today - 6 + (i : Int), pct := safe_pct (rand_checked i) 5,
        mood := rand_mood i, checked_count := rand_checked i })
  else history

/-- Modelled from the spec: whether the log holds a checked entry for
`habit_id` on `day` (a missing entry counts as not-checked, §4 edge-case
policy).  The source repository has no statistics engine of its own. -/
def checkedOn (logs : List LogEntry) (habit_id : String) (day : Int) : Bool :=
  logs.any (fun e => e.date == day && e.habit_id == habit_id && e.checked)

/-- Modelled from the spec: the backward walk of `calc_streak`.  Fuel bounds
the walk; each consecutive checked day consumes a distinct log entry, so
`logs.length + 1` steps always reach an unchecked day first. -/
def streakAux (fuel : Nat) (logs : List LogEntry) (habit_id : String) (day : Int) : Nat :=
  match fuel with
  | 0 => 0
  | fuel + 1 =>
    if checkedOn logs habit_id day then streakAux fuel logs habit_id (day - 1) + 1 else 0

/-- Modelled from the spec: `calc_streak(logs, habit_id, as_of)` (§4) —
consecutive checked days counted backward from `as_of` inclusive, stopping at
the first day with no checked entry.  Absent from src; `as_of` is the
injected reference date of §9. -/
def calc_streak (logs : List LogEntry) (habit_id : String) (as_of : Int) : Nat :=
  streakAux (logs.length + 1) logs habit_id as_of

/-- Modelled from the spec: `habit_success_rate_7days(logs, habit_id)` (§4) —
the fraction of the last 7 days (today inclusive) on which the habit was
checked; the denominator is always 7.  Absent from src. -/
def habit_success_rate_7days (logs : List LogEntry) (habit_id : String) (today : Int) : ℚ :=
  (((List.range 7).filter (fun i => checkedOn logs habit_id (today - (i : Int)))).length : ℚ) / 7

/-- Modelled from the spec: `calc_7day_success_rate(logs, habits)` (§4) —
done_count over habit_count × 7, and 0.0 for an empty habit list.  Absent
from src. -/
def calc_7day_success_rate (logs : List LogEntry) (habits : List Habit) (today : Int) : ℚ :=
  if habits.length = 0 then 0
  else
    (((List.range 7).map (fun i =>
        (habits.filter (fun h => checkedOn logs h.id (today - (i : Int)))).length)).sum : ℚ)
      / ((habits.length : ℚ) * 7)

/-- Modelled from the spec: `calc_daily_progress(logs, habits, target_date)`
(§4) — (done_count, total_count) for one date.  Absent from src; the only
related source code is `checked_count` (app.py lines 518-521), embedded
above. -/
def calc_daily_progress (logs : List LogEntry) (habits : List Habit) (d : Int) : Nat × Nat :=
  ((habits.filter (fun h => checkedOn logs h.id d)).length, habits.length)

/-- State-passing form of `build_month_calendar`: the pre-state is the
`history_rows` collection, and since no statement of the source body assigns
to `history_rows` or to any of its rows (lines 236-252 only read
`row["date"]` and `row.get("pct", 0)`), the post-state is the unchanged
collection. -/
def build_month_calendar_run (y : Int) (m : Nat) (history_rows : List Row) :
    List (List (String × String)) × List Row :=
  (build_month_calendar y m history_rows, history_rows)

/-- State-passing form of `heuristic_recommendation`: its body (lines
169-185) reads `goal` and `health_traits` and builds fresh lists, never
assigning to its arguments. -/
def heuristic_recommendation_run (goal health_traits : String) :
    List (String × List String) × (String × String) :=
  (heuristic_recommendation goal health_traits, (goal, health_traits))

/-- State-passing form of the spec-modelled `calc_daily_progress` over its
log/habit inputs. -/
def calc_daily_progress_run (logs : List LogEntry) (habits : List Habit) (d : Int) :
    (Nat × Nat) × (List LogEntry × List Habit) :=
  (calc_daily_progress logs habits d, (logs, habits))

/-- Concrete habit list used as a test vector: four habits. -/
def demoHabits : List Habit :=
  [⟨"h1", "기상 미션", "기본 루틴", 7, 0⟩, ⟨"h2", "물 마시기", "기본 루틴", 7, 0⟩,
   ⟨"h3", "공부/독서", "기본 루틴", 7, 0⟩, ⟨"h4", "운동하기", "기본 루틴", 7, 0⟩]

/-- Concrete log: on day 0 habits h1-h3 are checked, h4 is not. -/
def demoLogs : List LogEntry :=
  [⟨0, "h1", true⟩, ⟨0, "h2", true⟩, ⟨0, "h3", true⟩, ⟨0, "h4", false⟩]

/-- Concrete `checked_map` with four entries, three of them checked. -/
def demoMap : List (String × Bool) :=
  [("기상 미션", true), ("물 마시기", true), ("공부/독서", true), ("운동하기", false)]

/-- Concrete history of 7 rows with distinct ascending dates 1..7. -/
def ch7 : List Row :=
  [⟨1, 0, 0, 0⟩, ⟨2, 0, 0, 0⟩, ⟨3, 0, 0, 0⟩, ⟨4, 0, 0, 0⟩,
   ⟨5, 0, 0, 0⟩, ⟨6, 0, 0, 0⟩, ⟨7, 0, 0, 0⟩]

/-! ## Helper lemmas -/

/-- Helper: `takeLast n` leaves a short list unchanged. -/
theorem takeLast_eq_self {α : Type} {n : Nat} {l : List α} (hl : l.length ≤ n) :
    takeLast n l = l := by
  unfold takeLast
  have h0 : l.length - n = 0 := by omega
  rw [h0, List.drop_zero]

/-- Helper: a streak is zero when the reference day has no checked entry. -/
theorem streak_zero_of_unchecked {logs : List LogEntry} {habit_id : String} {as_of : Int}
    (h : checkedOn logs habit_id as_of = false) :
    calc_streak logs habit_id as_of = 0 := by
  unfold calc_streak streakAux
  simp [h]

/-! ## C2 -/

/-- C2: for a habit id with no log entries at all, `calc_streak` returns 0;
`calc_streak` always returns a non-negative integer; and it returns 0
whenever the reference day itself has no checked entry, regardless of any
earlier history. -/
theorem calc_streak_zero (logs : List LogEntry) (habit_id : String) (as_of : Int) :
    ((∀ e ∈ logs, e.habit_id ≠ habit_id) → calc_streak logs habit_id as_of = 0) ∧
    (0 : Int) ≤ (calc_streak logs habit_id as_of : Int) ∧
    (checkedOn logs habit_id as_of = false → calc_streak logs habit_id as_of = 0) := by
  refine ⟨fun hno => ?_, Int.ofNat_nonneg _, fun h => streak_zero_of_unchecked h⟩
  apply streak_zero_of_unchecked
  simp only [checkedOn, List.any_eq_false]
  intro e he
  simp [hno e he]

/-- C2 witness: a habit with an empty log has streak 0. -/
theorem calc_streak_zero_witness : calc_streak [] "habit" 0 = 0 :=
  (calc_streak_zero [] "habit" 0).1 (by simp)

/-! ## C3 -/

/-- C3: on an empty (or non-positive) denominator the percentage helper
`safe_pct` returns 0, and the aggregate statistics on an empty habit list
return 0 and (0, 0) respectively instead of dividing by zero. -/
theorem empty_inputs_zero (x t : Int) (logs : List LogEntry) (today d : Int) :
    (t ≤ 0 → safe_pct x t = 0) ∧
    calc_7day_success_rate logs [] today = 0 ∧
    calc_daily_progress logs [] d = (0, 0) := by
  refine ⟨fun ht => ?_, ?_, rfl⟩
  · simp [safe_pct, ht]
  · simp [calc_7day_success_rate]

/-- C3 witness: `safe_pct 3 0 = 0`. -/
theorem empty_inputs_zero_witness : safe_pct 3 0 = 0 :=
  (empty_inputs_zero 3 0 [] 0 0).1 (le_refl 0)

/-! ## C4 -/

/-- C4: daily progress for one date is (done_count, total_count) with
total_count the number of habits and done_count the number of habits checked
on that date (hence done ≤ total); with no habits it is (0, 0); with 4
habits of which 3 are checked it is (3, 4), in agreement with the source's
`checked_count` over the checked map. -/
theorem daily_progress_spec :
    (∀ (logs : List LogEntry) (habits : List Habit) (d : Int),
        (calc_daily_progress logs habits d).2 = habits.length ∧
        (calc_daily_progress logs habits d).1 ≤ habits.length) ∧
    (∀ (logs : List LogEntry) (d : Int), calc_daily_progress logs [] d = (0, 0)) ∧
    calc_daily_progress demoLogs demoHabits 0 = (3, 4) ∧
    checked_count demoMap = 3 ∧ demoMap.length = 4 :=
  ⟨fun _ habits _ => ⟨rfl, List.length_filter_le _ habits⟩,
   fun _ _ => rfl, by decide, by decide, rfl⟩

/-! ## C5 -/

/-- Helper: rounding half to even never goes below a non-negative input's
floor, so the result of a non-negative input is non-negative. -/
theorem round_half_even_nonneg {q : ℚ} (hq : 0 ≤ q) : 0 ≤ round_half_even q := by
  have hf : 0 ≤ ⌊q⌋ := Int.floor_nonneg.mpr hq
  unfold round_half_even
  split_ifs <;> omega

/-- Helper: rounding half to even a rational at most 100 stays at most 100. -/
theorem round_half_even_le_hundred {q : ℚ} (hq : q ≤ 100) : round_half_even q ≤ 100 := by
  have hf : ⌊q⌋ ≤ 100 := by
    have h1 : (⌊q⌋ : ℚ) ≤ 100 := le_trans (Int.floor_le q) hq
    exact_mod_cast h1
  unfold round_half_even
  rcases lt_or_eq_of_le hf with hlt | heq
  · split_ifs <;> omega
  · have hr : q - (⌊q⌋ : ℚ) < 1 / 2 := by
      have h2 : (⌊q⌋ : ℚ) = 100 := by exact_mod_cast heq
      rw [h2]
      linarith
    rw [if_pos hr, heq]

/-- Helper: rounding half to even an integer returns that integer. -/
theorem round_half_even_intCast (n : Int) : round_half_even (n : ℚ) = n := by
  unfold round_half_even
  rw [Int.floor_intCast, if_pos (by norm_num)]

/-- Helper: the spec-modelled 7-day rate always lies in [0, 1]. -/
theorem habit_rate_bounds (logs : List LogEntry) (habit_id : String) (today : Int) :
    0 ≤ habit_success_rate_7days logs habit_id today ∧
    habit_success_rate_7days logs habit_id today ≤ 1 := by
  unfold habit_success_rate_7days
  constructor
  · positivity
  · rw [div_le_one (by norm_num)]
    have hle :
        ((List.range 7).filter (fun i => checkedOn logs habit_id (today - (i : Int)))).length
          ≤ (List.range 7).length :=
      List.length_filter_le _ _
    rw [List.length_range] at hle
    exact_mod_cast hle

/-- C5 counterexample: the source's rate producer `safe_pct` returns the
integer percentage 50 on input (1, 2), which is not a value in [0, 1], so
the claim that every produced success-rate value lies in the closed interval
[0, 1] is false for the code. -/
theorem safe_pct_unit_interval_cex : safe_pct 1 2 = 50 ∧ ¬ (safe_pct 1 2 ≤ 1) := by
  have h : safe_pct 1 2 = 50 := by
    unfold safe_pct
    rw [if_neg (by norm_num)]
    have h1 : ((1 : Int) : ℚ) / ((2 : Int) : ℚ) * 100 = ((50 : Int) : ℚ) := by norm_num
    rw [h1, round_half_even_intCast]
  exact ⟨h, by rw [h]; norm_num⟩

/-- C5 (amended): the percentages produced by the statistics code
(`safe_pct` with 0 ≤ x ≤ total) are integers in the closed interval
[0, 100] rather than floats in [0, 1]; the spec-modelled per-habit 7-day
rate, absent from the source, does lie in [0, 1]. -/
theorem safe_pct_percent_range (x t : Int) (h0 : 0 ≤ x) (h1 : x ≤ t) :
    (0 ≤ safe_pct x t ∧ safe_pct x t ≤ 100) ∧
    ∀ (logs : List LogEntry) (habit_id : String) (today : Int),
      0 ≤ habit_success_rate_7days logs habit_id today ∧
      habit_success_rate_7days logs habit_id today ≤ 1 := by
  refine ⟨?_, fun logs habit_id today => habit_rate_bounds logs habit_id today⟩
  unfold safe_pct
  split_ifs with ht
  · exact ⟨le_refl 0, by norm_num⟩
  · push_neg at ht
    have ht2 : (0 : ℚ) < (t : ℚ) := by exact_mod_cast ht
    have hx0 : (0 : ℚ) ≤ (x : ℚ) := by exact_mod_cast h0
    have hq0 : 0 ≤ (x : ℚ) / (t : ℚ) * 100 := by positivity
    have hq1 : (x : ℚ) / (t : ℚ) * 100 ≤ 100 := by
      have hxt : (x : ℚ) / (t : ℚ) ≤ 1 := by
        rw [div_le_one ht2]
        exact_mod_cast h1
      nlinarith
    exact ⟨round_half_even_nonneg hq0, round_half_even_le_hundred hq1⟩

/-- C5 witness: `safe_pct 1 2` lies in [0, 100]. -/
theorem safe_pct_percent_range_witness : 0 ≤ safe_pct 1 2 ∧ safe_pct 1 2 ≤ 100 :=
  (safe_pct_percent_range 1 2 (by decide) (by decide)).1

/-! ## C7 -/

/-- C7: the statistics functions are deterministic — two calls on equal
log/habit inputs return equal results; they consult no hidden state, which
the embedding reflects because the source bodies of `build_month_calendar`,
`heuristic_recommendation` and `safe_pct` read nothing but their arguments
and module-level constants. -/
theorem stats_deterministic (y y2 : Int) (m m2 : Nat) (rows rows2 : List Row)
    (g g2 t t2 : String) (x x2 tot tot2 : Int)
    (hy : y = y2) (hm : m = m2) (hr : rows = rows2) (hg : g = g2) (ht : t = t2)
    (hx : x = x2) (htot : tot = tot2) :
    build_month_calendar y m rows = build_month_calendar y2 m2 rows2 ∧
    heuristic_recommendation g t = heuristic_recommendation g2 t2 ∧
    safe_pct x tot = safe_pct x2 tot2 := by
  subst hy hm hr hg ht hx htot
  exact ⟨rfl, rfl, rfl⟩

/-- C7 witness: determinism at concrete arguments. -/
theorem stats_deterministic_witness :
    build_month_calendar 2025 10 ch7 = build_month_calendar 2025 10 ch7 ∧
    heuristic_recommendation "체중" "불면" = heuristic_recommendation "체중" "불면" ∧
    safe_pct 1 2 = safe_pct 1 2 :=
  stats_deterministic 2025 2025 10 10 ch7 ch7 "체중" "체중" "불면" "불면" 1 1 2 2
    rfl rfl rfl rfl rfl rfl rfl

/-! ## C8 -/

/-- C8: the statistics functions never mutate their inputs — in the
state-passing embedding of each source body (which contains no assignment to
the history rows or the log/habit collections), the post-state equals the
pre-state while the returned value is the pure function of the inputs. -/
theorem stats_frame (y : Int) (m : Nat) (rows : List Row) (logs : List LogEntry)
    (habits : List Habit) (d : Int) (g t : String) :
    ((build_month_calendar_run y m rows).2 = rows ∧
      (build_month_calendar_run y m rows).1 = build_month_calendar y m rows) ∧
    ((heuristic_recommendation_run g t).2 = (g, t) ∧
      (heuristic_recommendation_run g t).1 = heuristic_recommendation g t) ∧
    ((calc_daily_progress_run logs habits d).2 = (logs, habits) ∧
      (calc_daily_progress_run logs habits d).1 = calc_daily_progress logs habits d) :=
  ⟨⟨rfl, rfl⟩, ⟨rfl, rfl⟩, ⟨rfl, rfl⟩⟩

/-! ## C10 -/

/-- C10: when the OpenAI key is absent, empty or whitespace-only, or when
the remote call fails (or yields no usable dict: `cleanedOf data = []`),
`generate_habit_recommendations` returns exactly
`heuristic_recommendation goal health_traits` instead of raising. -/
theorem missing_key_fallback (key : Option String) (goal traits : String)
    (api : Option (List (String × Option (List String)))) :
    (strip (key.getD "") = "" →
        generate_habit_recommendations key goal traits api
          = heuristic_recommendation goal traits) ∧
    generate_habit_recommendations key goal traits none
        = heuristic_recommendation goal traits ∧
    (∀ data, cleanedOf data = [] →
        generate_habit_recommendations key goal traits (some data)
          = heuristic_recommendation goal traits) := by
  unfold generate_habit_recommendations
  refine ⟨fun hk => by rw [if_pos hk], ?_, fun data hc => ?_⟩
  · by_cases hk : strip (key.getD "") = ""
    · rw [if_pos hk]
    · rw [if_neg hk]
  · by_cases hk : strip (key.getD "") = ""
    · rw [if_pos hk]
    · rw [if_neg hk]
      simp [hc]

/-- C10 witness: a whitespace-only key falls back to the heuristic even when
the remote call would have produced a dict. -/
theorem missing_key_fallback_witness :
    strip ((some "   ").getD "") = "" ∧
    generate_habit_recommendations (some "   ") "체중 감량" "불면"
        (some [("운동", some ["달리기"])])
      = heuristic_recommendation "체중 감량" "불면" :=
  ⟨by decide,
   (missing_key_fallback (some "   ") "체중 감량" "불면"
     (some [("운동", some ["달리기"])])).1 (by decide)⟩


/-! ## Lemmas about save_day -/

/-- Helper: `save_day` unfolded. -/
theorem save_day_eq (h : List Row) (d p m c : Int) :
    save_day h d p m c =
      takeLast 7 (List.insertionSort rowLe
        (if h.any (fun r => r.date == d) then update_first h d p m c
         else h ++ [{ date := d, pct := p, mood := m, checked_count := c }])) := rfl

/-- Helper: the update loop preserves the history length. -/
theorem update_first_length (h : List Row) (d p m c : Int) :
    (update_first h d p m c).length = h.length := by
  induction h with
  | nil => rfl
  | cons r t ih => by_cases hr : r.date = d <;> simp [update_first, hr, ih]

/-- Helper: the update loop preserves the dates of the history. -/
theorem update_first_map_date (h : List Row) (d p m c : Int) :
    (update_first h d p m c).map (fun r => r.date) = h.map (fun r => r.date) := by
  induction h with
  | nil => rfl
  | cons r t ih => by_cases hr : r.date = d <;> simp [update_first, hr, ih]

/-- Helper: every row after the update loop is an old row or the new row. -/
theorem mem_update_first {r : Row} {h : List Row} {d p m c : Int}
    (hr : r ∈ update_first h d p m c) :
    r ∈ h ∨ r = { date := d, pct := p, mood := m, checked_count := c } := by
  induction h with
  | nil => simp [update_first] at hr
  | cons a t ih =>
    simp only [update_first] at hr
    by_cases ha : a.date = d
    · rw [if_pos ha] at hr
      rcases List.mem_cons.mp hr with h1 | h1
      · exact Or.inr h1
      · exact Or.inl (List.mem_cons_of_mem _ h1)
    · rw [if_neg ha] at hr
      rcases List.mem_cons.mp hr with h1 | h1
      · exact Or.inl (by rw [h1]; exact List.mem_cons_self a t)
      · rcases ih h1 with h2 | h2
        · exact Or.inl (List.mem_cons_of_mem _ h2)
        · exact Or.inr h2

/-- Helper: when the date is present the updated row is in the result of the
update loop. -/
theorem new_mem_update_first {h : List Row} {d : Int} (p m c : Int)
    (hd : d ∈ h.map (fun r => r.date)) :
    ({ date := d, pct := p, mood := m, checked_count := c } : Row) ∈ update_first h d p m c := by
  induction h with
  | nil => simp at hd
  | cons a t ih =>
    simp only [update_first]
    by_cases ha : a.date = d
    · rw [if_pos ha]
      exact List.mem_cons_self _ _
    · rw [if_neg ha]
      refine List.mem_cons_of_mem _ (ih ?_)
      simp only [List.map_cons, List.mem_cons] at hd
      rcases hd with h1 | h1
      · exact absurd h1.symm ha
      · exact h1

/-- Helper: with duplicate-free dates, any row of the updated history whose
date is the saved date is exactly the freshly-written row. -/
theorem mem_update_first_eq_new {h : List Row} {d p m c : Int} {r : Row}
    (hnd : (h.map (fun r => r.date)).Nodup)
    (hr : r ∈ update_first h d p m c) (hdate : r.date = d) :
    r = { date := d, pct := p, mood := m, checked_count := c } := by
  induction h with
  | nil => simp [update_first] at hr
  | cons a t ih =>
    simp only [List.map_cons, List.nodup_cons] at hnd
    simp only [update_first] at hr
    by_cases ha : a.date = d
    · rw [if_pos ha] at hr
      rcases List.mem_cons.mp hr with h1 | h1
      · exact h1
      · exact absurd (by rw [ha, ← hdate]; exact List.mem_map_of_mem _ h1) hnd.1
    · rw [if_neg ha] at hr
      rcases List.mem_cons.mp hr with h1 | h1
      · exact absurd (by rw [← h1]; exact hdate) ha
      · exact ih hnd.2 h1

/-- Helper: the found-flag of `save_day` is the membership of the date. -/
theorem any_date_eq_true {h : List Row} {d : Int} :
    h.any (fun r => r.date == d) = true ↔ d ∈ h.map (fun r => r.date) := by
  simp only [List.any_eq_true, List.mem_map, beq_iff_eq]

/-- Helper: every row stored by `save_day` is an old row or the new row. -/
theorem mem_save_day {r : Row} {h : List Row} {d p m c : Int}
    (hr : r ∈ save_day h d p m c) :
    r ∈ h ∨ r = { date := d, pct := p, mood := m, checked_count := c } := by
  rw [save_day_eq] at hr
  unfold takeLast at hr
  have h1 := (List.perm_insertionSort rowLe _).subset ((List.drop_sublist _ _).subset hr)
  by_cases hf : h.any (fun r => r.date == d) = true
  · rw [if_pos hf] at h1
    exact mem_update_first h1
  · rw [if_neg hf] at h1
    rcases List.mem_append.mp h1 with h2 | h2
    · exact Or.inl h2
    · exact Or.inr (by simpa using h2)

/-- Helper: `save_day` stores at most 7 rows. -/
theorem save_day_length_le (h : List Row) (d p m c : Int) :
    (save_day h d p m c).length ≤ 7 := by
  rw [save_day_eq]
  unfold takeLast
  rw [List.length_drop]
  omega

/-- Helper: `save_day` stores rows in ascending date order. -/
theorem save_day_sorted (h : List Row) (d p m c : Int) :
    List.Sorted rowLe (save_day h d p m c) := by
  rw [save_day_eq]
  unfold takeLast
  exact List.Pairwise.sublist (List.drop_sublist _ _) (List.sorted_insertionSort rowLe _)

/-! ## C1 -/

/-- C1 counterexample: a 7-row history with one row per date (`ch7`, dates
1..7), after `save_day` for the fresh date 0, holds no row at all for the
saved date — the 7-row trim of app.py line 559 drops the freshly inserted
row, so the claim that exactly one authoritative row for the saved date
remains (carrying the latest values) is false. -/
theorem save_day_upsert_cex :
    (ch7.map (fun r => r.date)).Nodup ∧ ch7.length = 7 ∧
    ¬ ∃ r ∈ save_day ch7 0 50 5 3, r.date = 0 := by
  decide

/-- C1 (amended): for a history with at most one row per date and at most 7
rows, `save_day` keeps the dates duplicate-free (never two rows for the same
key), every stored row for the saved date carries exactly the latest values,
and the saved row is actually present whenever the date was already present
or the history had fewer than 7 rows — if the history already has 7 rows and
the saved date is new and older than all of them, the trim to the last 7
rows drops it. -/
theorem save_day_upsert (h : List Row) (d p m c : Int)
    (hnd : (h.map (fun r => r.date)).Nodup) (hlen : h.length ≤ 7) :
    ((save_day h d p m c).map (fun r => r.date)).Nodup ∧
    (∀ r ∈ save_day h d p m c, r.date = d →
        r = { date := d, pct := p, mood := m, checked_count := c }) ∧
    ((d ∈ h.map (fun r => r.date) ∨ h.length < 7) →
        ({ date := d, pct := p, mood := m, checked_count := c } : Row)
          ∈ save_day h d p m c) := by
  by_cases hd : d ∈ h.map (fun r => r.date)
  · have hf : h.any (fun r => r.date == d) = true := any_date_eq_true.mpr hd
    have hwhole : save_day h d p m c = List.insertionSort rowLe (update_first h d p m c) := by
      rw [save_day_eq, if_pos hf]
      exact takeLast_eq_self (by rw [List.length_insertionSort, update_first_length]; exact hlen)
    have hperm := List.perm_insertionSort rowLe (update_first h d p m c)
    refine ⟨?_, fun r hr hdate => ?_, fun _ => ?_⟩
    · rw [hwhole]
      refine ((hperm.map (fun r => r.date)).symm).nodup ?_
      rw [update_first_map_date]
      exact hnd
    · rw [hwhole] at hr
      exact mem_update_first_eq_new hnd (hperm.subset hr) hdate
    · rw [hwhole]
      exact hperm.symm.subset (new_mem_update_first p m c hd)
  · have hf : ¬ h.any (fun r => r.date == d) = true := fun hc => hd (any_date_eq_true.mp hc)
    have hnd2 : ((h ++ [({ date := d, pct := p, mood := m, checked_count := c } : Row)]).map
        (fun r => r.date)).Nodup := by
      rw [List.map_append]
      refine List.Nodup.append hnd (by simp) ?_
      intro a ha hb
      simp only [List.map_cons, List.map_nil, List.mem_singleton] at hb
      rw [hb] at ha
      exact hd ha
    have hperm := List.perm_insertionSort rowLe
      (h ++ [({ date := d, pct := p, mood := m, checked_count := c } : Row)])
    refine ⟨?_, fun r hr hdate => ?_, fun hcase => ?_⟩
    · rw [save_day_eq, if_neg hf]
      unfold takeLast
      refine List.Nodup.sublist (List.Sublist.map _ (List.drop_sublist _ _)) ?_
      exact ((hperm.map (fun r => r.date)).symm).nodup hnd2
    · rcases mem_save_day hr with h1 | h1
      · exact absurd (by rw [← hdate]; exact List.mem_map_of_mem _ h1) hd
      · exact h1
    · have hlen7 : h.length < 7 := by
        rcases hcase with h1 | h1
        · exact absurd h1 hd
        · exact h1
      have hwhole : save_day h d p m c = List.insertionSort rowLe
          (h ++ [({ date := d, pct := p, mood := m, checked_count := c } : Row)]) := by
        rw [save_day_eq, if_neg hf]
        refine takeLast_eq_self ?_
        rw [List.length_insertionSort, List.length_append, List.length_singleton]
        omega
      rw [hwhole]
      exact hperm.symm.subset (List.mem_append_right _ (List.mem_singleton_self _))

/-- C1 witness: saving a new date into a 1-row history stores the new row. -/
theorem save_day_upsert_witness :
    (([⟨1, 0, 0, 0⟩] : List Row).map (fun r => r.date)).Nodup ∧
    ([⟨1, 0, 0, 0⟩] : List Row).length ≤ 7 ∧
    ({ date := 2, pct := 50, mood := 5, checked_count := 3 } : Row)
      ∈ save_day [⟨1, 0, 0, 0⟩] 2 50 5 3 :=
  ⟨by decide, by decide,
   (save_day_upsert [⟨1, 0, 0, 0⟩] 2 50 5 3 (by decide) (by decide)).2.2
     (Or.inr (by decide))⟩

/-! ## C6 -/

/-- C6 counterexample: a previously written row (date 1 of `ch7`) is no
longer present after `save_day` for date 8 — the history is trimmed to the 7
most recent dates, so the stored log does discard entries and is capped at 7
rows, contradicting unbounded growth. -/
theorem history_cap_cex :
    (⟨1, 0, 0, 0⟩ : Row) ∈ ch7 ∧ (⟨1, 0, 0, 0⟩ : Row) ∉ save_day ch7 8 50 5 2 := by
  decide

/-- C6 (amended): `save_day` never stores more than 7 rows, and every stored
row is either the row for the saved date or one of the previously present
rows (no other data is invented); rows older than the 7 greatest stored
dates are discarded rather than kept forever. -/
theorem save_day_capped (h : List Row) (d p m c : Int) :
    (save_day h d p m c).length ≤ 7 ∧
    ∀ r ∈ save_day h d p m c, r.date = d ∨ r ∈ h := by
  refine ⟨save_day_length_le h d p m c, fun r hr => ?_⟩
  rcases mem_save_day hr with h1 | h1
  · exact Or.inr h1
  · exact Or.inl (by rw [h1])

/-! ## C9 -/

/-- Helper: the demo history has at most 7 rows. -/
theorem init_demo_length (today : Int) (rc rm : Nat → Int) :
    (init_demo_history_if_empty [] today rc rm).length ≤ 7 := by
  simp [init_demo_history_if_empty]

/-- Helper: the demo history is in ascending date order. -/
theorem init_demo_sorted (today : Int) (rc rm : Nat → Int) :
    List.Sorted rowLe (init_demo_history_if_empty [] today rc rm) := by
  unfold init_demo_history_if_empty
  rw [if_pos (by rfl)]
  refine List.pairwise_map.mpr ?_
  refine (List.pairwise_lt_range 6).imp ?_
  intro a b hab
  show today - 6 + (a : Int) ≤ today - 6 + (b : Int)
  have hab2 : (a : Int) ≤ (b : Int) := by exact_mod_cast Nat.le_of_lt hab
  omega

/-- C9: every write keeps the history shape invariant — after any
`save_day` the session history holds at most 7 rows and is sorted in
ascending date order, and the demo initialisation on an empty history
likewise installs at most 7 rows in ascending date order. -/
theorem history_shape (h : List Row) (d p m c today : Int) (rc rm : Nat → Int) :
    ((save_day h d p m c).length ≤ 7 ∧ List.Sorted rowLe (save_day h d p m c)) ∧
    ((init_demo_history_if_empty [] today rc rm).length ≤ 7 ∧
      List.Sorted rowLe (init_demo_history_if_empty [] today rc rm)) :=
  ⟨⟨save_day_length_le h d p m c, save_day_sorted h d p m c⟩,
   ⟨init_demo_length today rc rm, init_demo_sorted today rc rm⟩⟩

/-- C6 witness: the row written for date 8 is stored, and every stored row is
the saved row or an old row. -/
theorem save_day_capped_witness :
    (⟨8, 50, 5, 2⟩ : Row) ∈ save_day ch7 8 50 5 2 ∧
    ((⟨8, 50, 5, 2⟩ : Row).date = 8 ∨ (⟨8, 50, 5, 2⟩ : Row) ∈ ch7) :=
  ⟨by decide, (save_day_capped ch7 8 50 5 2).2 ⟨8, 50, 5, 2⟩ (by decide)⟩

end HabitTracker
